import Mathlib

/-!
Verification of `dodo.py`, the build-automation configuration of the
`rl-lab` repository (a doit task graph for the GTCOARLab distribution).

The embedding below translates the parts of `dodo.py` that the claims
touch.  Filesystem paths are modelled as strings relative to the
repository root (`P.ROOT` in the source); filesystem facts such as
`Path.exists()` are Bool parameters; the external subprocesses (robot,
rebot, conda-lock, constructor, prettier, jinja2) are modelled as opaque
deterministic parameters or, for the test driver, as an oracle giving
each attempted child process its outcome.
-/

/-! ## Python string primitives

Models of the Python `str` operations that `dodo.py` uses:
`str.split(sep)`, `str.strip()`, `str.splitlines()`, `str.replace(a, b)`
and `pathlib.Path.suffix`.  All of them work on the character list of
the string. -/

/-- `beginsWith pat l` is true when `pat` is an initial segment of `l`. -/
def beginsWith : List Char → List Char → Bool
  | [], _ => true
  | _ :: _, [] => false
  | c :: cs, d :: ds => c = d && beginsWith cs ds

/-- Find the first occurrence of `pat` in `l`: returns
`some (before, after)` where `l = before ++ pat ++ after` and `before`
has no earlier occurrence, or `none` when `pat` does not occur. -/
def findOcc (pat : List Char) : List Char → Option (List Char × List Char)
  | [] => if beginsWith pat [] then some ([], []) else none
  | c :: rest =>
    if beginsWith pat (c :: rest) then some ([], (c :: rest).drop pat.length)
    else (findOcc pat rest).map fun pr => (c :: pr.1, pr.2)

/-- Fuel-driven worker for Python `str.split(sep)` with a non-empty
separator: cut at each non-overlapping occurrence, left to right. -/
def splitSeqAux (pat : List Char) : Nat → List Char → List (List Char)
  | 0, s => [s]
  | fuel + 1, s =>
    match findOcc pat s with
    | none => [s]
    | some (pre, post) => pre :: splitSeqAux pat fuel post

/-- Python `s.split(sep)` for a non-empty separator `sep`. -/
def pySplit (sep s : String) : List String :=
  (splitSeqAux sep.data (s.data.length + 1) s.data).map String.mk

/-- The characters Python `str.strip()` removes (the common ASCII
whitespace set). -/
def isPyWhitespace (c : Char) : Bool :=
  c = ' ' || c = '\t' || c = '\n' || c = '\x0d' || c = '\x0b' || c = '\x0c'

/-- Python `s.strip()`: drop leading and trailing whitespace. -/
def pyStrip (s : String) : String :=
  String.mk (((s.data.dropWhile isPyWhitespace).reverse.dropWhile
    isPyWhitespace).reverse)

/-- Characters Python `str.splitlines()` treats as a line boundary
(besides the two-character boundary `\r\n`, handled separately). -/
def isLineBreak (c : Char) : Bool :=
  c = '\n' || c = '\x0d' || c = '\x0b' || c = '\x0c' ||
  c = '\x1c' || c = '\x1d' || c = '\x1e' || c = '\x85' || c = '\u2028' || c = '\u2029'

/-- Worker for `str.splitlines()`: `acc` holds the current line,
reversed. -/
def splitlinesAux : List Char → List Char → List (List Char)
  | acc, [] => if acc.isEmpty then [] else [acc.reverse]
  | acc, '\x0d' :: '\n' :: rest => acc.reverse :: splitlinesAux [] rest
  | acc, c :: rest =>
    if isLineBreak c then acc.reverse :: splitlinesAux [] rest
    else splitlinesAux (c :: acc) rest

/-- Python `s.splitlines()`. -/
def pySplitlines (s : String) : List String :=
  (splitlinesAux [] s.data).map String.mk

/-- Fuel-driven worker for Python `s.replace(pat, rep)`. -/
def replaceAllAux (pat rep : List Char) : Nat → List Char → List Char
  | 0, s => s
  | fuel + 1, s =>
    match findOcc pat s with
    | none => s
    | some (pre, post) => pre ++ rep ++ replaceAllAux pat rep fuel post

/-- Python `s.replace(pat, rep)` for a non-empty pattern: replace every
non-overlapping occurrence, left to right. -/
def replaceAll (pat rep s : String) : String :=
  String.mk (replaceAllAux pat.data rep.data (s.data.length + 1) s.data)

/-- Python `str.upper()` on the ASCII range (the variant names it is
applied to are ASCII). -/
def pyUpper (s : String) : String :=
  String.mk (s.data.map fun c =>
    if 'a' ≤ c ∧ c ≤ 'z' then Char.ofNat (c.toNat - 32) else c)

/-- Python `s.endswith(suf)`. -/
def endsWithStr (suf s : String) : Bool :=
  beginsWith suf.data.reverse s.data.reverse

/-- `pathlib.Path(p).suffix`: the extension (with dot) of the final
path component; empty when the final component has no dot, a leading
dot only, or a trailing dot only. -/
def pathSuffix (p : String) : String :=
  let name := (p.data.reverse.takeWhile (fun c => c ≠ '/')).reverse
  let ext := name.reverse.takeWhile (fun c => c ≠ '.')
  if ('.' ∈ name) ∧ ext.length + 1 < name.length ∧ ext.length ≠ 0 then
    String.mk ('.' :: ext.reverse)
  else ""

/-! ## Configuration constants (`class C` in `dodo.py`) -/

/-- Zero-padded decimal rendering to at least `w` digits, as produced
by `strftime` fields `%Y` (w = 4) and `%m` (w = 2). -/
def padNat (w n : Nat) : String :=
  let s := toString n
  String.mk (List.replicate (w - s.data.length) '0') ++ s

namespace C

def NAME : String := "GTCOARLab"

def VARIANTS : List String := ["cpu", "gpu"]

def SUBDIRS : List String := ["linux-64", "osx-64", "win-64"]

/-- `C.VERSION = datetime.today().strftime("%Y.%m")`: the version is a
function of the date on which the process started. -/
def VERSION (year month : Nat) : String :=
  padNat 4 year ++ "." ++ padNat 2 month

def BUILD_NUMBER : String := "0"

/-- `C.CONSTRUCTOR_PLATFORM`: dict lookup, `none` models a `KeyError`. -/
def CONSTRUCTOR_PLATFORM (subdir : String) : Option (String × String) :=
  if subdir = "linux-64" then some ("Linux-x86_64", "sh")
  else if subdir = "osx-64" then some ("MacOSX-x86_64", "sh")
  else if subdir = "win-64" then some ("Windows-x86_64", "exe")
  else none

end C

namespace P

def PRETTIER_SUFFIXES : List String := [".yml", ".yaml", ".toml", ".json", ".md"]

end P

namespace U

/-- `U.variant_spec`: the path of the spec file for a (variant, subdir)
pair when it exists on disk, else `None`.  `specExists` models the
filesystem (`Path.exists`). -/
def variant_spec (specExists : String → Bool) (variant subdir : String) :
    Option String :=
  let spec := "specs/run-" ++ variant ++ "-" ++ subdir ++ ".yml"
  if specExists spec then some spec else none

/-- The file name of the installer produced for a (variant, subdir)
pair (`U.installer(...).name`); `none` models the `KeyError` on an
unknown subdir. -/
def installer_file (version variant subdir : String) : Option String :=
  (C.CONSTRUCTOR_PLATFORM subdir).map fun pe =>
    C.NAME ++ ("-" ++ (pyUpper variant ++ ("-" ++ (version ++ ("-" ++
      (C.BUILD_NUMBER ++ ("-" ++ (pe.1 ++ ("." ++ pe.2)))))))))

/-- `U.installer`: the path of the installer, under `dist/`. -/
def installer (version variant subdir : String) : Option String :=
  (installer_file version variant subdir).map fun n => "dist/" ++ n

/-- The lock file path `U.construct` reads and declares as its file
dependency (`P.LOCKS / f"{variant}-{subdir}.conda.lock"`). -/
def construct_lockfile (variant subdir : String) : String :=
  "locks/" ++ (variant ++ ("-" ++ (subdir ++ ".conda.lock")))

/-- The stem of the lock file produced by `U.lock(env_name, variant,
subdir)`: `env_name + (f"-{variant}-" if variant else "-") + subdir`. -/
def lock_stem (env_name : String) (variant : Option String)
    (subdir : String) : String :=
  env_name ++ (match variant with
    | some v => "-" ++ (v ++ "-")
    | none => "-") ++ subdir

/-- The target of the task returned by `U.lock`:
`P.LOCKS / f"{stem}.conda.lock"`. -/
def lock_target (env_name : String) (variant : Option String)
    (subdir : String) : String :=
  "locks/" ++ (lock_stem env_name variant subdir ++ ".conda.lock")

end U

/-! ## Task generators (variant and platform filtering)

Each generator is modelled by the list of (variant, subdir) pairs for
which it yields a pair-indexed task.  `task_lock` additionally yields
variant-independent lock tasks (`build`, `atest`, `lint`, `dev`) per
subdir and `task_build` yields two tasks per pair (installer and
sha256); neither detail affects which pairs are covered. -/

/-- The (variant, subdir) pairs for which `task_lock` yields the run
environment lock task; empty when `C.SKIP_LOCKS` is set. -/
def task_lock_run_pairs (specExists : String → Bool) (skipLocks : Bool) :
    List (String × String) :=
  if skipLocks then []
  else C.SUBDIRS.flatMap fun subdir =>
    (C.VARIANTS.filter fun variant =>
      (U.variant_spec specExists variant subdir).isSome).map
        fun variant => (variant, subdir)

/-- The (variant, subdir) pairs for which `task_build` yields tasks. -/
def task_build_pairs (specExists : String → Bool) :
    List (String × String) :=
  C.VARIANTS.flatMap fun variant =>
    C.SUBDIRS.flatMap fun subdir =>
      if (U.variant_spec specExists variant subdir).isSome
      then [(variant, subdir)] else []

/-- The (variant, subdir) pairs for which `task_test` yields a task:
the loop skips only pairs whose subdir is not `C.THIS_SUBDIR` and never
consults `U.variant_spec`. -/
def task_test_pairs (thisSubdir : String) : List (String × String) :=
  C.VARIANTS.flatMap fun variant =>
    C.SUBDIRS.flatMap fun subdir =>
      if subdir ≠ thisSubdir then [] else [(variant, subdir)]

/-! ## The construct renderer (`U.construct`) -/

/-- The package list extracted from a lock file by the inner
`construct()` action:
`lock.read_text().split("@EXPLICIT")[1].strip().splitlines()`.
`none` models the `IndexError` when the sentinel does not occur. -/
def explicitSpecs (lockText : String) : Option (List String) :=
  ((pySplit "@EXPLICIT" lockText).get? 1).map fun seg =>
    pySplitlines (pyStrip seg)

/-- The render context built by the inner `construct()` action. -/
structure RenderContext where
  specs : List String
  name : String
  subdir : String
  variant : String
  build_number : String
  version : String
deriving DecidableEq

namespace U

/-- The rendered output files written by the inner `construct()` action
of `U.construct`, as a list of (destination path, final content) in
template order.  `render` models `jinja2.Template(src).render(**context)`
and `prettify` models the prettier subprocess run on files whose suffix
is in `P.PRETTIER_SUFFIXES`; both external tools are deterministic
functions.  Each template is a (path relative to the template dir,
text) pair; `none` models the crash when the lock file has no
`@EXPLICIT` sentinel. -/
def construct_outputs (render : String → RenderContext → String)
    (prettify : String → String) (templates : List (String × String))
    (lockText variant subdir : String) (year month : Nat) :
    Option (List (String × String)) :=
  (explicitSpecs lockText).map fun specs =>
    let context : RenderContext :=
      ⟨specs, C.NAME, subdir, variant, C.BUILD_NUMBER, C.VERSION year month⟩
    templates.map fun t =>
      let destName := replaceAll ".j2" "" t.1
      let dest := if endsWithStr ".j2" t.1 then render t.2 context else t.2
      let final := if pathSuffix destName ∈ P.PRETTIER_SUFFIXES
        then prettify dest else dest
      (destName, final)

end U

/-! ## The test driver invocation (`U.atest_attempt` argument list) -/

namespace U

/-- `f"{variant}-{subdir}-{attempt}"`, the per-attempt stem. -/
def atest_stem (variant subdir : String) (attempt : Nat) : String :=
  variant ++ ("-" ++ (subdir ++ ("-" ++ toString attempt)))

/-- A path under `P.ATEST_OUT = P.BUILD / "atest"`. -/
def atest_out (s : String) : String :=
  "build/atest/" ++ s

/-- The `extra_args` accumulated by `U.atest_attempt`: on a retry
(`attempt` truthy) raise the log level, and additionally rerun only the
failed cases when the previous result file exists; then append the
environment-provided `C.ATEST_ARGS`. -/
def atest_extra_args (variant subdir : String) (attempt : Nat)
    (prevExists : Bool) (atestArgs : List String) : List String :=
  (if attempt ≠ 0 then
    ["--loglevel", "TRACE"] ++
    (if prevExists then
      ["--rerunfailed",
       atest_out (atest_stem variant subdir (attempt - 1) ++ ".robot.xml")]
     else [])
   else []) ++ atestArgs

/-- The arguments of the robot invocation before `extra_args`, with the
leading `["python", "-m", "robot"]`. -/
def atest_base_args (variant subdir : String) (attempt : Nat)
    (version osName iname : String) : List String :=
  ["python", "-m", "robot",
   "--name", C.NAME ++ (" " ++ (variant ++ (" " ++ subdir))),
   "--outputdir", atest_out (atest_stem variant subdir attempt),
   "--output", atest_out (atest_stem variant subdir attempt ++ ".robot.xml"),
   "--log", atest_out (atest_stem variant subdir attempt ++ ".log.html"),
   "--report", atest_out (atest_stem variant subdir attempt ++ ".report.html"),
   "--xunit", atest_out (atest_stem variant subdir attempt ++ ".xunit.xml"),
   "--variable", "NAME:" ++ iname,
   "--variable", "ATTEMPT:" ++ toString attempt,
   "--variable", "OS:" ++ osName,
   "--variable", "INSTALLER:" ++ ("dist/" ++ iname),
   "--variable", "VERSION:" ++ version,
   "--variable", "BUILD:" ++ C.BUILD_NUMBER,
   "--randomize", "VARIANT:" ++ variant,
   "--randomize", "all"]

/-- The full `str_args` subprocess argument list of `U.atest_attempt`
(paths rendered relative to the repository root; the final argument is
`P.ATEST`, the `atest` directory).  `prevExists` models
`previous.exists()` for the result file of the preceding attempt;
`none` models the `KeyError` on an unknown subdir. -/
def atest_attempt_args (variant subdir : String) (attempt : Nat)
    (prevExists : Bool) (atestArgs : List String)
    (version osName : String) : Option (List String) :=
  (installer_file version variant subdir).map fun iname =>
    atest_base_args variant subdir attempt version osName iname ++
      atest_extra_args variant subdir attempt prevExists atestArgs ++
      ["atest"]

end U

/-! ## The test driver retry loop (`U.atest`)

Each attempt runs one robot child process.  The child either runs to
completion with some exit code, or the operator interrupts the driver
while it waits (`KeyboardInterrupt` inside `proc.wait()`).  An oracle
`outcomes : Nat → WaitOutcome` gives the behaviour of the child started
by attempt `k`. -/

/-- The behaviour of one attempt's child process. -/
inductive WaitOutcome
  | exited (rc : Int)
  | interrupted
deriving DecidableEq

/-- The value `U.atest_attempt` returns: the exit code from
`proc.wait()`, or `1` when a `KeyboardInterrupt` arrives. -/
def attemptReturn : WaitOutcome → Int
  | .exited rc => rc
  | .interrupted => 1

/-- Whether `U.atest_attempt` kills its child process: only on
`KeyboardInterrupt` (`proc.kill()`). -/
def attemptKillsChild : WaitOutcome → Bool
  | .exited _ => false
  | .interrupted => true

/-- The observable events of one `U.atest` run: the subprocess
invocations it performs. -/
inductive Event
  | attemptRun (k : Nat) (rc : Int)
  | rebotRun
deriving DecidableEq

/-- Is an event an attempt (a robot subprocess invocation)? -/
def Event.isAttempt : Event → Bool
  | .attemptRun _ _ => true
  | .rebotRun => false

namespace U

/-- The loop body of `U.atest` over the remaining attempt indices:
run `U.atest_attempt`, record the event, and stop at the first zero
return code.  Returns the events and the final `return_code`. -/
def atest_loop (outcomes : Nat → WaitOutcome) :
    List Nat → Int → List Event × Int
  | [], rc => ([], rc)
  | k :: ks, _ =>
    let rc := attemptReturn (outcomes k)
    if rc = 0 then ([Event.attemptRun k rc], rc)
    else
      let r := atest_loop outcomes ks rc
      (Event.attemptRun k rc :: r.1, r.2)

/-- `U.atest`: `return_code` starts at 1, the loop runs over
`range(C.ATEST_RETRIES + 1)` (`retries` is the integer parsed from the
`ATEST_RETRIES` environment variable), then `U.rebot()` runs and the
driver returns `return_code == 0`. -/
def atest (retries : Int) (outcomes : Nat → WaitOutcome) :
    List Event × Bool :=
  let r := atest_loop outcomes (List.range (retries + 1).toNat) 1
  (r.1 ++ [Event.rebotRun], r.2 == 0)

end U

/-- The number of robot subprocess invocations in a list of events. -/
def attemptCount (evs : List Event) : Nat :=
  (evs.filter Event.isAttempt).length

/-- The number of rebot invocations in a list of events. -/
def rebotCount (evs : List Event) : Nat :=
  (evs.filter fun e => e = Event.rebotRun).length

/-! ## Lemmas about the retry loop -/

theorem atest_loop_length (o : Nat → WaitOutcome) (ks : List Nat)
    (init : Int) : (U.atest_loop o ks init).1.length ≤ ks.length := by
  induction ks generalizing init with
  | nil => simp [U.atest_loop]
  | cons k ks ih =>
    simp only [U.atest_loop]
    split
    · simp
    · simpa using ih _

theorem atest_loop_isAttempt (o : Nat → WaitOutcome) (ks : List Nat)
    (init : Int) :
    ∀ e ∈ (U.atest_loop o ks init).1, e.isAttempt = true := by
  induction ks generalizing init with
  | nil => simp [U.atest_loop]
  | cons k ks ih =>
    simp only [U.atest_loop]
    split
    · simp [Event.isAttempt]
    · intro e he
      rcases List.mem_cons.mp he with h | h
      · simp [h, Event.isAttempt]
      · exact ih _ e h

theorem atest_loop_mem (o : Nat → WaitOutcome) (ks : List Nat)
    (init : Int) {j : Nat} {rc : Int}
    (h : Event.attemptRun j rc ∈ (U.atest_loop o ks init).1) :
    j ∈ ks ∧ rc = attemptReturn (o j) := by
  induction ks generalizing init with
  | nil => simp [U.atest_loop] at h
  | cons k ks ih =>
    simp only [U.atest_loop] at h
    split at h
    · rcases List.mem_singleton.mp h with h
      rcases h
      simp
    · rcases List.mem_cons.mp h with h | h
      · rcases h
        simp
      · rcases ih _ h with ⟨h1, h2⟩
        exact ⟨List.mem_cons_of_mem _ h1, h2⟩

theorem atest_loop_stop (o : Nat → WaitOutcome) (ks : List Nat)
    (init : Int) (hs : List.Sorted (· < ·) ks) {i j : Nat} {rcj : Int}
    (hi : Event.attemptRun i 0 ∈ (U.atest_loop o ks init).1)
    (hj : Event.attemptRun j rcj ∈ (U.atest_loop o ks init).1) :
    j ≤ i := by
  induction ks generalizing init with
  | nil => simp [U.atest_loop] at hi
  | cons k ks ih =>
    rcases List.sorted_cons.mp hs with ⟨hk, hs2⟩
    by_cases hz : attemptReturn (o k) = 0
    · simp only [U.atest_loop, if_pos hz] at hi hj
      obtain ⟨e1, -⟩ :=
        (Event.attemptRun.injEq _ _ _ _).mp (List.mem_singleton.mp hi)
      obtain ⟨e2, -⟩ :=
        (Event.attemptRun.injEq _ _ _ _).mp (List.mem_singleton.mp hj)
      omega
    · simp only [U.atest_loop, if_neg hz] at hi hj
      rcases List.mem_cons.mp hi with h | h
      · obtain ⟨-, h0⟩ := (Event.attemptRun.injEq _ _ _ _).mp h
        exact absurd h0.symm hz
      · have hik : k < i := hk i (atest_loop_mem o ks _ h).1
        rcases List.mem_cons.mp hj with h2 | h2
        · obtain ⟨e2, -⟩ := (Event.attemptRun.injEq _ _ _ _).mp h2
          omega
        · exact ih _ hs2 h h2

theorem atest_loop_append (o : Nat → WaitOutcome) (ks1 ks2 : List Nat)
    (init : Int) (h : ∀ k ∈ ks1, attemptReturn (o k) ≠ 0) :
    ∃ rc : Int, (U.atest_loop o (ks1 ++ ks2) init).1 =
      (ks1.map fun k => Event.attemptRun k (attemptReturn (o k))) ++
        (U.atest_loop o ks2 rc).1 := by
  induction ks1 generalizing init with
  | nil => exact ⟨init, by simp⟩
  | cons k ks1 ih =>
    have hk : attemptReturn (o k) ≠ 0 := h k (List.mem_cons_self k ks1)
    obtain ⟨rc, hrc⟩ := ih (attemptReturn (o k))
      (fun a ha => h a (List.mem_cons_of_mem _ ha))
    refine ⟨rc, ?_⟩
    simp only [List.cons_append, U.atest_loop, if_neg hk, List.append_eq, hrc,
      List.map_cons]

theorem atest_loop_cons_head (o : Nat → WaitOutcome) (k : Nat)
    (ks : List Nat) (init : Int) :
    Event.attemptRun k (attemptReturn (o k)) ∈
      (U.atest_loop o (k :: ks) init).1 := by
  simp only [U.atest_loop]
  split
  · simp
  · simp

theorem atest_events_rebot (retries : Int) (o : Nat → WaitOutcome) :
    rebotCount (U.atest retries o).1 = 1 := by
  have h := atest_loop_isAttempt o (List.range (retries + 1).toNat) 1
  simp only [U.atest, rebotCount, List.filter_append]
  rw [List.filter_eq_nil_iff.mpr, List.nil_append]
  · simp
  · intro e he
    have := h e he
    simp only [decide_eq_true_eq]
    intro hEq
    rw [hEq] at this
    simp [Event.isAttempt] at this

theorem atest_events_last (retries : Int) (o : Nat → WaitOutcome) :
    (U.atest retries o).1.getLast? = some Event.rebotRun := by
  simp [U.atest]

theorem atest_attemptCount (retries : Int) (o : Nat → WaitOutcome) :
    attemptCount (U.atest retries o).1 =
      (U.atest_loop o (List.range (retries + 1).toNat) 1).1.length := by
  have h := atest_loop_isAttempt o (List.range (retries + 1).toNat) 1
  simp only [U.atest, attemptCount, List.filter_append]
  rw [List.filter_eq_self.mpr h]
  simp [Event.isAttempt]

theorem atest_mem_attempt_iff (retries : Int) (o : Nat → WaitOutcome)
    {j : Nat} {rc : Int} :
    (Event.attemptRun j rc ∈ (U.atest retries o).1 ↔
      Event.attemptRun j rc ∈
        (U.atest_loop o (List.range (retries + 1).toNat) 1).1) := by
  simp [U.atest]

/-! ## Claims about the retry driver -/

/-- Claim C1: for every retry budget N (`C.ATEST_RETRIES`) with N ≥ 0,
`U.atest` invokes the robot test subprocess at most N + 1 times, and no
further attempt happens after the first attempt that returns exit code
zero. -/
theorem atest_retry_budget_and_stop (N : Int) (o : Nat → WaitOutcome)
    (h : 0 ≤ N) :
    (attemptCount (U.atest N o).1 : Int) ≤ N + 1 ∧
    ∀ i j : Nat, ∀ rcj : Int,
      Event.attemptRun i 0 ∈ (U.atest N o).1 →
      Event.attemptRun j rcj ∈ (U.atest N o).1 → j ≤ i := by
  constructor
  · rw [atest_attemptCount]
    have h1 := atest_loop_length o (List.range (N + 1).toNat) 1
    rw [List.length_range] at h1
    omega
  · intro i j rcj hi hj
    exact atest_loop_stop o _ 1 (List.sorted_lt_range _)
      ((atest_mem_attempt_iff N o).mp hi)
      ((atest_mem_attempt_iff N o).mp hj)

/-- Witness for C1 at budget 0 with an immediately succeeding suite. -/
theorem atest_retry_budget_and_stop_witness :
    (0 : Int) ≤ 0 ∧
    ((attemptCount (U.atest 0 (fun _ => WaitOutcome.exited 0)).1 : Int) ≤
        0 + 1 ∧
      ∀ i j : Nat, ∀ rcj : Int,
        Event.attemptRun i 0 ∈ (U.atest 0 (fun _ => WaitOutcome.exited 0)).1 →
        Event.attemptRun j rcj ∈
          (U.atest 0 (fun _ => WaitOutcome.exited 0)).1 → j ≤ i) :=
  ⟨by decide,
   atest_retry_budget_and_stop 0 (fun _ => WaitOutcome.exited 0) (by decide)⟩

/-- Claim C4: every run of `U.atest` invokes the aggregation step
`U.rebot` exactly once, whatever the retry budget (even a negative one)
and whatever the attempt outcomes, and the rebot invocation is the last
subprocess event, so the final result is returned only after the
aggregation has run. -/
theorem atest_rebot_exactly_once (retries : Int) (o : Nat → WaitOutcome) :
    rebotCount (U.atest retries o).1 = 1 ∧
    (U.atest retries o).1.getLast? = some Event.rebotRun :=
  ⟨atest_events_rebot retries o, atest_events_last retries o⟩

/-- Claim C6: a `KeyboardInterrupt` during an attempt makes
`U.atest_attempt` kill the child and return 1, a failing code; the
interrupted attempt shows up as a failed attempt in the driver run, the
loop still proceeds to the next attempt when budget remains, and the
aggregation still runs exactly once. -/
theorem atest_interrupt_is_failed_attempt (retries : Int)
    (o : Nat → WaitOutcome) (k : Nat)
    (hint : o k = WaitOutcome.interrupted)
    (hbudget : (k : Int) < retries)
    (hprev : ∀ j, j < k → attemptReturn (o j) ≠ 0) :
    attemptReturn (o k) = 1 ∧ attemptKillsChild (o k) = true ∧
    Event.attemptRun k 1 ∈ (U.atest retries o).1 ∧
    Event.attemptRun (k + 1) (attemptReturn (o (k + 1))) ∈
      (U.atest retries o).1 ∧
    rebotCount (U.atest retries o).1 = 1 := by
  have r1 : attemptReturn (o k) = 1 := by rw [hint]; rfl
  have rkill : attemptKillsChild (o k) = true := by rw [hint]; rfl
  have hkn : k + 2 ≤ (retries + 1).toNat := by omega
  have h1 := List.range'_append 0 (k + 1) ((retries + 1).toNat - (k + 1)) 1
  rw [show 0 + 1 * (k + 1) = k + 1 from by omega,
    show (retries + 1).toNat - (k + 1) + (k + 1) = (retries + 1).toNat
      from by omega] at h1
  have hsplit : List.range (retries + 1).toNat = List.range (k + 1) ++
      List.range' (k + 1) ((retries + 1).toNat - (k + 1)) := by
    rw [List.range_eq_range', ← h1, ← List.range_eq_range']
  have hfail : ∀ a ∈ List.range (k + 1), attemptReturn (o a) ≠ 0 := by
    intro a ha
    have halt := List.mem_range.mp ha
    by_cases hak : a = k
    · rw [hak, r1]; decide
    · exact hprev a (by omega)
  obtain ⟨rc, hrc⟩ := atest_loop_append o (List.range (k + 1))
    (List.range' (k + 1) ((retries + 1).toNat - (k + 1))) 1 hfail
  rw [show (retries + 1).toNat - (k + 1) = ((retries + 1).toNat - (k + 2)) + 1
    from by omega, List.range'_succ] at hrc
  have hev : (U.atest_loop o (List.range (retries + 1).toNat) 1).1 =
      ((List.range (k + 1)).map fun a =>
        Event.attemptRun a (attemptReturn (o a))) ++
        (U.atest_loop o
          ((k + 1) :: List.range' (k + 1 + 1) ((retries + 1).toNat - (k + 2)))
          rc).1 := by
    rw [hsplit, show (retries + 1).toNat - (k + 1) =
      ((retries + 1).toNat - (k + 2)) + 1 from by omega, List.range'_succ]
    exact hrc
  have memk : Event.attemptRun k 1 ∈
      (U.atest_loop o (List.range (retries + 1).toNat) 1).1 := by
    rw [hev]
    refine List.mem_append_left _ ?_
    have hm := List.mem_map_of_mem
      (fun a => Event.attemptRun a (attemptReturn (o a)))
      (List.self_mem_range_succ k)
    simpa [r1] using hm
  have memk1 : Event.attemptRun (k + 1) (attemptReturn (o (k + 1))) ∈
      (U.atest_loop o (List.range (retries + 1).toNat) 1).1 := by
    rw [hev]
    exact List.mem_append_right _ (atest_loop_cons_head o (k + 1) _ rc)
  exact ⟨r1, rkill, (atest_mem_attempt_iff retries o).mpr memk,
    (atest_mem_attempt_iff retries o).mpr memk1,
    atest_events_rebot retries o⟩

/-- Witness for C6: budget 1, the operator interrupts every attempt. -/
theorem atest_interrupt_is_failed_attempt_witness :
    (fun _ => WaitOutcome.interrupted : Nat → WaitOutcome) 0 =
        WaitOutcome.interrupted ∧
    ((0 : Nat) : Int) < 1 ∧
    (attemptReturn ((fun _ => WaitOutcome.interrupted) 0) = 1 ∧
     attemptKillsChild ((fun _ => WaitOutcome.interrupted) 0) = true ∧
     Event.attemptRun 0 1 ∈ (U.atest 1 fun _ => WaitOutcome.interrupted).1 ∧
     Event.attemptRun (0 + 1)
        (attemptReturn ((fun _ => WaitOutcome.interrupted) (0 + 1))) ∈
       (U.atest 1 fun _ => WaitOutcome.interrupted).1 ∧
     rebotCount (U.atest 1 fun _ => WaitOutcome.interrupted).1 = 1) :=
  ⟨rfl, by decide,
   atest_interrupt_is_failed_attempt 1 (fun _ => WaitOutcome.interrupted) 0
     rfl (by decide) (fun j hj => absurd hj (Nat.not_lt_zero j))⟩

/-- Claim C10: a negative configured retry count makes `U.atest` run
the test subprocess zero times, still run the aggregation exactly once,
and return failure. -/
theorem atest_negative_retries (N : Int) (o : Nat → WaitOutcome)
    (h : N < 0) :
    attemptCount (U.atest N o).1 = 0 ∧
    rebotCount (U.atest N o).1 = 1 ∧ (U.atest N o).2 = false := by
  have hn : (N + 1).toNat = 0 := by omega
  refine ⟨?_, atest_events_rebot N o, ?_⟩
  · rw [atest_attemptCount, hn]
    simp [U.atest_loop]
  · simp [U.atest, hn, U.atest_loop]

/-- Witness for C10 at retry count -1. -/
theorem atest_negative_retries_witness :
    (-1 : Int) < 0 ∧
    (attemptCount (U.atest (-1) (fun _ => WaitOutcome.exited 0)).1 = 0 ∧
     rebotCount (U.atest (-1) (fun _ => WaitOutcome.exited 0)).1 = 1 ∧
     (U.atest (-1) (fun _ => WaitOutcome.exited 0)).2 = false) :=
  ⟨by decide,
   atest_negative_retries (-1) (fun _ => WaitOutcome.exited 0) (by decide)⟩

/-! ## Claims about the task generators -/

/-- Counterexample to claim C2: with no specification file on disk at
all, `task_test` still yields a task for the ("cpu", "linux-64") pair
on a linux-64 host, although `U.variant_spec` returns `None` for it:
`task_test` filters only on the current platform and never consults
`U.variant_spec`. -/
theorem task_test_ignores_spec_counterexample :
    U.variant_spec (fun _ => false) "cpu" "linux-64" = none ∧
    ("cpu", "linux-64") ∈ task_test_pairs "linux-64" := by
  constructor
  · rfl
  · decide

/-- Claim C2, amended: for every (variant, platform) pair without a
specification file, `task_lock` and `task_build` yield no task for the
pair (and no error is raised, the pair is skipped); `task_test`,
however, filters only on the current platform: it yields a task for
every configured pair whose platform is the current one, whether or not
the specification file exists. -/
theorem task_pair_spec_filter (specExists : String → Bool)
    (skipLocks : Bool) (thisSubdir variant subdir : String)
    (h : U.variant_spec specExists variant subdir = none) :
    ((variant, subdir) ∉ task_lock_run_pairs specExists skipLocks ∧
     (variant, subdir) ∉ task_build_pairs specExists) ∧
    ((variant, subdir) ∈ task_test_pairs thisSubdir ↔
      variant ∈ C.VARIANTS ∧ subdir ∈ C.SUBDIRS ∧ subdir = thisSubdir) := by
  have hnone : ∀ v s, (v, s) = (variant, subdir) →
      (U.variant_spec specExists v s).isSome = true → False := by
    intro v s hvs hsome
    simp only [Prod.mk.injEq] at hvs
    rw [hvs.1, hvs.2, h] at hsome
    simp at hsome
  refine ⟨⟨?_, ?_⟩, ?_⟩
  · intro hmem
    simp only [task_lock_run_pairs] at hmem
    split at hmem
    · simp at hmem
    · rw [List.mem_flatMap] at hmem
      obtain ⟨s, -, hmem2⟩ := hmem
      rw [List.mem_map] at hmem2
      obtain ⟨v, hv, hEq⟩ := hmem2
      exact hnone v s hEq (List.mem_filter.mp hv).2
  · intro hmem
    simp only [task_build_pairs] at hmem
    rw [List.mem_flatMap] at hmem
    obtain ⟨v, -, hmem2⟩ := hmem
    rw [List.mem_flatMap] at hmem2
    obtain ⟨s, -, hmem3⟩ := hmem2
    split at hmem3
    · rename_i hsome
      rcases List.mem_singleton.mp hmem3 with hEq
      exact absurd (hnone v s hEq.symm hsome) not_false
    · simp at hmem3
  · constructor
    · intro hmem
      simp only [task_test_pairs] at hmem
      rw [List.mem_flatMap] at hmem
      obtain ⟨v, hv, hmem2⟩ := hmem
      rw [List.mem_flatMap] at hmem2
      obtain ⟨s, hs, hmem3⟩ := hmem2
      split at hmem3
      · simp at hmem3
      · rename_i hsub
        have hEq := List.mem_singleton.mp hmem3
        simp only [Prod.mk.injEq] at hEq
        rw [not_not] at hsub
        exact ⟨hEq.1 ▸ hv, hEq.2 ▸ hs, hEq.2 ▸ hsub⟩
    · rintro ⟨hv, hs, hsub⟩
      simp only [task_test_pairs]
      rw [List.mem_flatMap]
      refine ⟨variant, hv, ?_⟩
      rw [List.mem_flatMap]
      refine ⟨subdir, hs, ?_⟩
      rw [if_neg (by simp [hsub])]
      exact List.mem_singleton.mpr rfl

/-- Witness for the amended C2 on an empty filesystem. -/
theorem task_pair_spec_filter_witness :
    U.variant_spec (fun _ => false) "cpu" "linux-64" = none ∧
    ((("cpu", "linux-64") ∉ task_lock_run_pairs (fun _ => false) false ∧
      ("cpu", "linux-64") ∉ task_build_pairs (fun _ => false)) ∧
     (("cpu", "linux-64") ∈ task_test_pairs "linux-64" ↔
       "cpu" ∈ C.VARIANTS ∧ "linux-64" ∈ C.SUBDIRS ∧
         "linux-64" = "linux-64")) :=
  ⟨rfl, task_pair_spec_filter (fun _ => false) false "linux-64" "cpu"
    "linux-64" rfl⟩

/-! ## Claim about the lock / construct wiring -/

/-- Claim C9 names a code bug: for the ("cpu", "linux-64") pair the
lock file `U.construct` reads and declares as its file dependency is
`locks/cpu-linux-64.conda.lock`, while the run-environment lock task
`U.lock("run", "cpu", "linux-64")` targets
`locks/run-cpu-linux-64.conda.lock` (the name `task_ci` also uses), so
the dependency of the construct task is never a lock target. -/
theorem construct_lock_path_mismatch :
    U.construct_lockfile "cpu" "linux-64" = "locks/cpu-linux-64.conda.lock" ∧
    U.lock_target "run" (some "cpu") "linux-64" =
      "locks/run-cpu-linux-64.conda.lock" ∧
    U.construct_lockfile "cpu" "linux-64" ≠
      U.lock_target "run" (some "cpu") "linux-64" := by
  refine ⟨rfl, rfl, ?_⟩
  decide

/-! ## Claims about the explicit package list (`@EXPLICIT`) -/

/-- The package list the claim C8 describes: the lines of the text
after the FIRST occurrence of the sentinel, stripped before splitting. -/
def afterFirstSentinelSpecs (lockText : String) : Option (List String) :=
  (findOcc "@EXPLICIT".data lockText.data).map fun pr =>
    pySplitlines (pyStrip (String.mk pr.2))

/-- The package list the code actually computes, stated without
`str.split`: the segment of the text strictly between the first
occurrence of the sentinel and the next occurrence after it (to the end
of the text when the sentinel occurs only once), stripped and split
into lines. -/
def betweenSentinelsSpecs (lockText : String) : Option (List String) :=
  (findOcc "@EXPLICIT".data lockText.data).map fun pr =>
    pySplitlines (pyStrip (String.mk
      (match findOcc "@EXPLICIT".data pr.2 with
       | none => pr.2
       | some pr2 => pr2.1)))

/-- Counterexample to claim C8: when the sentinel occurs twice,
`split("@EXPLICIT")[1]` keeps only the segment between the first two
occurrences, not everything after the first occurrence. -/
theorem explicit_specs_counterexample :
    explicitSpecs "x\n@EXPLICIT\na\n@EXPLICIT\nb" = some ["a"] ∧
    afterFirstSentinelSpecs "x\n@EXPLICIT\na\n@EXPLICIT\nb" =
      some ["a", "@EXPLICIT", "b"] ∧
    explicitSpecs "x\n@EXPLICIT\na\n@EXPLICIT\nb" ≠
      afterFirstSentinelSpecs "x\n@EXPLICIT\na\n@EXPLICIT\nb" := by
  refine ⟨by decide, by decide, by decide⟩

theorem findOcc_ne_nil (pat : List Char) (hpat : pat ≠ [])
    {s : List Char} {pr : List Char × List Char}
    (h : findOcc pat s = some pr) : s ≠ [] := by
  intro hs
  subst hs
  match pat, hpat with
  | c :: cs, _ => simp [findOcc, beginsWith] at h

theorem splitSeqAux_head (pat : List Char) (fuel : Nat) (s : List Char)
    (hfuel : 1 ≤ fuel) :
    (splitSeqAux pat fuel s).get? 0 =
      some (match findOcc pat s with
            | none => s
            | some pr2 => pr2.1) := by
  match fuel, hfuel with
  | fuel + 1, _ =>
    simp only [splitSeqAux]
    cases hocc : findOcc pat s with
    | none => rfl
    | some pr2 => rfl

/-- Claim C8, amended: for every lock-file text containing the
sentinel, the extracted package list equals the lines of the segment of
the text strictly between the first occurrence of the sentinel and the
following occurrence (to the end of the text when the sentinel occurs
only once), with surrounding whitespace stripped before splitting into
lines; the text before the first occurrence (and, when present, at or
after the second occurrence) contributes nothing. -/
theorem explicit_specs_between_sentinels (lockText : String)
    (h : (findOcc "@EXPLICIT".data lockText.data).isSome = true) :
    explicitSpecs lockText = betweenSentinelsSpecs lockText := by
  obtain ⟨pr, hf⟩ := Option.isSome_iff_exists.mp h
  obtain ⟨pre, post⟩ := pr
  have hne : lockText.data ≠ [] := findOcc_ne_nil _ (by decide) hf
  have hlen : 1 ≤ lockText.data.length := List.length_pos.mpr hne
  simp only [explicitSpecs, betweenSentinelsSpecs, pySplit, hf]
  simp only [splitSeqAux, hf, List.map_cons, List.get?_cons_succ,
    List.get?_map, splitSeqAux_head _ _ _ hlen]
  cases hocc : findOcc "@EXPLICIT".data post with
  | none =>
    have hocc2 : findOcc ['@', 'E', 'X', 'P', 'L', 'I', 'C', 'I', 'T'] post =
        none := hocc
    simp [hocc2]
  | some pr2 =>
    have hocc2 : findOcc ['@', 'E', 'X', 'P', 'L', 'I', 'C', 'I', 'T'] post =
        some pr2 := hocc
    simp [hocc2]

/-- Witness for the amended C8 on a lock file with one sentinel. -/
theorem explicit_specs_between_sentinels_witness :
    (findOcc "@EXPLICIT".data "pre\n@EXPLICIT\nhttps://a\nhttps://b\n".data).isSome
        = true ∧
    explicitSpecs "pre\n@EXPLICIT\nhttps://a\nhttps://b\n" =
      betweenSentinelsSpecs "pre\n@EXPLICIT\nhttps://a\nhttps://b\n" :=
  ⟨by decide, explicit_specs_between_sentinels _ (by decide)⟩

/-! ## Claims about the construct renderer -/

/-- Modelled from the spec: the external templating engine (excluded
from the repository as an assumed-correct collaborator) performs
"simple variable substitution"; this instance is its behaviour on a
template that substitutes in the `version` context variable. -/
def renderVersionOnly (tmpl : String) (context : RenderContext) : String :=
  tmpl ++ context.version

/-- Counterexample to claim C5: the render context contains
`C.VERSION`, which is computed from the date the process starts
(`datetime.today().strftime("%Y.%m")`), so two runs of the inner
`construct()` action with byte-identical lock-file and template inputs
write different bytes when the runs fall in different months. -/
theorem construct_output_depends_on_date :
    U.construct_outputs renderVersionOnly id [("construct.yaml.j2", "v=")]
        "@EXPLICIT\nhttps://pkg" "cpu" "linux-64" 2021 1 =
      some [("construct.yaml", "v=2021.01")] ∧
    U.construct_outputs renderVersionOnly id [("construct.yaml.j2", "v=")]
        "@EXPLICIT\nhttps://pkg" "cpu" "linux-64" 2021 2 =
      some [("construct.yaml", "v=2021.02")] ∧
    U.construct_outputs renderVersionOnly id [("construct.yaml.j2", "v=")]
        "@EXPLICIT\nhttps://pkg" "cpu" "linux-64" 2021 1 ≠
      U.construct_outputs renderVersionOnly id [("construct.yaml.j2", "v=")]
        "@EXPLICIT\nhttps://pkg" "cpu" "linux-64" 2021 2 := by
  refine ⟨by decide, by decide, by decide⟩

/-- Claim C5, amended: the rendered output is a pure function of the
lock-file text, the template files, the (variant, subdir) pair, the
external tools, and additionally the computed `C.VERSION`; two runs
with unchanged inputs write byte-identical output provided they compute
the same version string (fall in the same calendar month). -/
theorem construct_output_deterministic
    (render : String → RenderContext → String) (prettify2 : String → String)
    (templates : List (String × String)) (lockText variant subdir : String)
    (y1 m1 y2 m2 : Nat) (h : C.VERSION y1 m1 = C.VERSION y2 m2) :
    U.construct_outputs render prettify2 templates lockText variant subdir
        y1 m1 =
      U.construct_outputs render prettify2 templates lockText variant subdir
        y2 m2 := by
  simp only [U.construct_outputs, h]

/-- Witness for the amended C5: two runs in the same month. -/
theorem construct_output_deterministic_witness :
    C.VERSION 2021 3 = C.VERSION 2021 3 ∧
    U.construct_outputs renderVersionOnly id [("construct.yaml.j2", "v=")]
        "@EXPLICIT\nhttps://pkg" "cpu" "linux-64" 2021 3 =
      U.construct_outputs renderVersionOnly id [("construct.yaml.j2", "v=")]
        "@EXPLICIT\nhttps://pkg" "cpu" "linux-64" 2021 3 :=
  ⟨rfl, construct_output_deterministic renderVersionOnly id
    [("construct.yaml.j2", "v=")] "@EXPLICIT\nhttps://pkg" "cpu" "linux-64"
    2021 3 2021 3 rfl⟩

/-! ## Claims about the robot invocation arguments -/

theorem head_clash {t : String} {c d : Char} (h1 : t.data.head? = some c)
    (h2 : t.data.head? = some d) (hcd : c ≠ d) : False :=
  hcd (Option.some.inj (h1.symm.trans h2))

/-- No element of the fixed part of the robot argument list is a
string that starts with a dash, other than the option-name literals
themselves. -/
theorem not_mem_atest_base_args (t : String) (variant subdir : String)
    (attempt : Nat) (version osName iname : String)
    (hhead : t.data.head? = some '-')
    (hne : t ∉ (["-m", "--name", "--outputdir", "--output", "--log",
      "--report", "--xunit", "--variable", "--randomize"] : List String)) :
    t ∉ U.atest_base_args variant subdir attempt version osName iname := by
  intro hmem
  simp only [U.atest_base_args, List.mem_cons, List.not_mem_nil,
    or_false] at hmem
  rcases hmem with h|h|h|h|h|h|h|h|h|h|h|h|h|h|h|h|h|h|h|h|h|h|h|h|h|h|h|h|h|h|h
  · exact head_clash hhead (by rw [h]; rfl) (by decide)
  · exact hne (by rw [h]; decide)
  · exact head_clash hhead (by rw [h]; rfl) (by decide)
  · exact hne (by rw [h]; decide)
  · exact head_clash hhead (by rw [h]; rfl) (by decide)
  · exact hne (by rw [h]; decide)
  · exact head_clash hhead (by rw [h]; rfl) (by decide)
  · exact hne (by rw [h]; decide)
  · exact head_clash hhead (by rw [h]; rfl) (by decide)
  · exact hne (by rw [h]; decide)
  · exact head_clash hhead (by rw [h]; rfl) (by decide)
  · exact hne (by rw [h]; decide)
  · exact head_clash hhead (by rw [h]; rfl) (by decide)
  · exact hne (by rw [h]; decide)
  · exact head_clash hhead (by rw [h]; rfl) (by decide)
  · exact hne (by rw [h]; decide)
  · exact head_clash hhead (by rw [h]; rfl) (by decide)
  · exact hne (by rw [h]; decide)
  · exact head_clash hhead (by rw [h]; rfl) (by decide)
  · exact hne (by rw [h]; decide)
  · exact head_clash hhead (by rw [h]; rfl) (by decide)
  · exact hne (by rw [h]; decide)
  · exact head_clash hhead (by rw [h]; rfl) (by decide)
  · exact hne (by rw [h]; decide)
  · exact head_clash hhead (by rw [h]; rfl) (by decide)
  · exact hne (by rw [h]; decide)
  · exact head_clash hhead (by rw [h]; rfl) (by decide)
  · exact hne (by rw [h]; decide)
  · exact head_clash hhead (by rw [h]; rfl) (by decide)
  · exact hne (by rw [h]; decide)
  · exact head_clash hhead (by rw [h]; rfl) (by decide)

/-- Counterexample to claim C3: the environment pass-through
`C.ATEST_ARGS` is appended verbatim to every invocation, so an
attempt-0 invocation can contain "--rerunfailed" even though the driver
adds none. -/
theorem rerunfailed_attempt_zero_counterexample :
    "--rerunfailed" ∈ (U.atest_attempt_args "cpu" "linux-64" 0 false
      ["--rerunfailed", "old.robot.xml"] "2021.01" "Linux").getD [] := by
  decide

/-- Claim C3, amended: for every attempt k, when k > 0 and the result
file of attempt k-1 exists, the invocation contains "--rerunfailed"
immediately followed by that file's path; when k = 0 or that file does
not exist, the invocation contains no "--rerunfailed" — provided the
environment pass-through `C.ATEST_ARGS` does not itself contain
"--rerunfailed" (the driver itself never adds one in those cases). -/
theorem atest_rerunfailed_exactly_on_retry_with_previous
    (variant subdir : String) (attempt : Nat) (prevExists : Bool)
    (atestArgs : List String) (version osName : String)
    (args : List String)
    (hargs : U.atest_attempt_args variant subdir attempt prevExists
      atestArgs version osName = some args)
    (hext : "--rerunfailed" ∉ atestArgs) :
    ((attempt ≠ 0 ∧ prevExists = true) → ∃ l1 l2, args = l1 ++
      ["--rerunfailed",
        U.atest_out (U.atest_stem variant subdir (attempt - 1) ++
          ".robot.xml")] ++ l2) ∧
    ((attempt = 0 ∨ prevExists = false) → "--rerunfailed" ∉ args) := by
  simp only [U.atest_attempt_args, Option.map_eq_some'] at hargs
  obtain ⟨iname, -, hargseq⟩ := hargs
  subst hargseq
  constructor
  · rintro ⟨h0, hprev⟩
    refine ⟨U.atest_base_args variant subdir attempt version osName iname ++
      ["--loglevel", "TRACE"], atestArgs ++ ["atest"], ?_⟩
    simp [U.atest_extra_args, if_pos h0, hprev]
  · intro hcase hmem
    have hbase := not_mem_atest_base_args "--rerunfailed" variant subdir
      attempt version osName iname rfl (by decide)
    rcases List.mem_append.mp hmem with hmem2 | hmem2
    · rcases List.mem_append.mp hmem2 with hmem3 | hmem3
      · exact hbase hmem3
      · simp only [U.atest_extra_args] at hmem3
        rcases List.mem_append.mp hmem3 with hmem4 | hmem4
        · rcases hcase with h0 | hpf
          · rw [if_neg (by simp [h0])] at hmem4
            simp at hmem4
          · split at hmem4
            · rw [hpf] at hmem4
              simp at hmem4
            · simp at hmem4
        · exact hext hmem4
    · simp at hmem2

/-- Witness for the amended C3: attempt 1 with a previous result file
present, and attempt semantics checked at the concrete argument list. -/
theorem atest_rerunfailed_exactly_on_retry_witness :
    U.atest_attempt_args "cpu" "linux-64" 1 true [] "2021.01" "Linux" =
      some ((U.atest_attempt_args "cpu" "linux-64" 1 true [] "2021.01"
        "Linux").getD []) ∧
    "--rerunfailed" ∉ ([] : List String) ∧
    (((1 : Nat) ≠ 0 ∧ true = true) → ∃ l1 l2,
      (U.atest_attempt_args "cpu" "linux-64" 1 true [] "2021.01"
          "Linux").getD [] = l1 ++
        ["--rerunfailed",
          U.atest_out (U.atest_stem "cpu" "linux-64" (1 - 1) ++
            ".robot.xml")] ++ l2) ∧
    (((1 : Nat) = 0 ∨ true = false) →
      "--rerunfailed" ∉ (U.atest_attempt_args "cpu" "linux-64" 1 true []
        "2021.01" "Linux").getD []) :=
  ⟨rfl, by decide,
   atest_rerunfailed_exactly_on_retry_with_previous "cpu" "linux-64" 1 true
     [] "2021.01" "Linux" _ rfl (by decide)⟩

/-- Counterexample to claim C7: on attempt 1 with NO previous result
file, the invocation still contains the raised-verbosity arguments
"--loglevel" "TRACE" (the code adds them for every retry,
unconditionally), contradicting the claimed equivalence. -/
theorem loglevel_without_previous_counterexample :
    "--loglevel" ∈ (U.atest_attempt_args "cpu" "linux-64" 1 false []
      "2021.01" "Linux").getD [] ∧
    "TRACE" ∈ (U.atest_attempt_args "cpu" "linux-64" 1 false []
      "2021.01" "Linux").getD [] := by
  refine ⟨by decide, by decide⟩

/-- Claim C7, amended: verbosity is raised on every attempt k > 0,
regardless of whether a result file from attempt k-1 exists: the
invocation contains "--loglevel" immediately followed by "TRACE";
attempt 0 contains no "--loglevel" — provided the environment
pass-through `C.ATEST_ARGS` does not itself contain "--loglevel". -/
theorem atest_loglevel_on_every_retry
    (variant subdir : String) (attempt : Nat) (prevExists : Bool)
    (atestArgs : List String) (version osName : String)
    (args : List String)
    (hargs : U.atest_attempt_args variant subdir attempt prevExists
      atestArgs version osName = some args)
    (hext : "--loglevel" ∉ atestArgs) :
    (attempt ≠ 0 → ∃ l1 l2, args = l1 ++ ["--loglevel", "TRACE"] ++ l2) ∧
    (attempt = 0 → "--loglevel" ∉ args) := by
  simp only [U.atest_attempt_args, Option.map_eq_some'] at hargs
  obtain ⟨iname, -, hargseq⟩ := hargs
  subst hargseq
  constructor
  · intro h0
    refine ⟨U.atest_base_args variant subdir attempt version osName iname,
      (if prevExists then
        ["--rerunfailed",
         U.atest_out (U.atest_stem variant subdir (attempt - 1) ++
           ".robot.xml")] else []) ++ atestArgs ++ ["atest"], ?_⟩
    simp [U.atest_extra_args, if_pos h0]
  · intro h0 hmem
    have hbase := not_mem_atest_base_args "--loglevel" variant subdir
      attempt version osName iname rfl (by decide)
    rcases List.mem_append.mp hmem with hmem2 | hmem2
    · rcases List.mem_append.mp hmem2 with hmem3 | hmem3
      · exact hbase hmem3
      · simp only [U.atest_extra_args, if_neg (by simp [h0] :
          ¬ attempt ≠ 0)] at hmem3
        rcases List.mem_append.mp hmem3 with hmem4 | hmem4
        · simp at hmem4
        · exact hext hmem4
    · simp at hmem2

/-- Witness for the amended C7: attempts 1 (no previous file) and the
attempt-0 absence, at concrete argument lists. -/
theorem atest_loglevel_on_every_retry_witness :
    U.atest_attempt_args "cpu" "linux-64" 1 false [] "2021.01" "Linux" =
      some ((U.atest_attempt_args "cpu" "linux-64" 1 false [] "2021.01"
        "Linux").getD []) ∧
    "--loglevel" ∉ ([] : List String) ∧
    (((1 : Nat) ≠ 0 → ∃ l1 l2,
      (U.atest_attempt_args "cpu" "linux-64" 1 false [] "2021.01"
          "Linux").getD [] = l1 ++ ["--loglevel", "TRACE"] ++ l2) ∧
     ((1 : Nat) = 0 →
      "--loglevel" ∉ (U.atest_attempt_args "cpu" "linux-64" 1 false []
        "2021.01" "Linux").getD [])) :=
  ⟨rfl, by decide,
   atest_loglevel_on_every_retry "cpu" "linux-64" 1 false [] "2021.01"
     "Linux" _ rfl (by decide)⟩
